import Mathlib

/-!
Shallow embedding of the sopel-discord bridge module
(`sopel_modules/sopel_discord/sopel_discord.py`).

Python dicts are modelled as association lists with unique keys and
last-write-wins assignment; HTTP calls are modelled as oracle functions
passed to the handlers; Python exceptions are modelled with `Except`.
-/

namespace SopelDiscord

/-- Python exceptions raised on the code paths of the module: `HTTPError`
is what `requests.Response.raise_for_status` raises on a 4xx/5xx status,
`ConnectionError` is the network failure `requests` raises from the call
itself, `ValueError` comes from tuple unpacking and from `int()`. -/
inductive PyExc where
  | httpError (status : Nat)
  | connectionError
  | valueError
deriving DecidableEq, Repr

/-- The `except HTTPError` clauses catch exactly this exception class;
`ConnectionError` is not a subclass of `HTTPError` in `requests`. -/
def isHTTPError : PyExc → Bool
  | PyExc.httpError _ => true
  | _ => false

/-- requests `raise_for_status` raises `HTTPError` exactly for status
codes 400-599 and returns normally otherwise. -/
def raiseForStatus (status : Nat) : Except PyExc Unit :=
  if 400 ≤ status ∧ status < 600 then Except.error (PyExc.httpError status) else Except.ok ()

/-- Python dict assignment `d[k] = v` on an association list whose keys are
unique: an existing key keeps its position and gets the new value, a new
key is appended at the end, as in CPython. -/
def dictInsert {α β : Type} [DecidableEq α] : List (α × β) → α → β → List (α × β)
  | [], k, v => [(k, v)]
  | p :: rest, k, v => if p.1 = k then (k, v) :: rest else p :: dictInsert rest k v

/-- Python dict lookup `d[k]` / `d.get(k)` on an association list. -/
def pyGet {α β : Type} [DecidableEq α] : List (α × β) → α → Option β
  | [], _ => none
  | p :: rest, k => if p.1 = k then some p.2 else pyGet rest k

/-- Builds a Python dict from a list of key-value pairs by repeated
assignment, so a repeated key silently keeps the last value. -/
def pyDictOf {α β : Type} [DecidableEq α] (l : List (α × β)) : List (α × β) :=
  l.foldl (fun d p => dictInsert d p.1 p.2) []

/-- ASCII word characters, the fragment of the Python regex class `\w`
that the bridge actually meets. -/
def isWordChar (c : Char) : Bool := c.isAlphanum || c == '_'

/-- ASCII whitespace, the fragment of Python `str.strip` and of the regex
class `\s` that the bridge actually meets. -/
def isPySpace (c : Char) : Bool :=
  c == ' ' || c == '\t' || c == '\n' || c == '\r' || c == '\x0b' || c == '\x0c'

/-- Python `str.strip()`: drops leading and trailing whitespace. -/
def pyStrip (s : String) : String :=
  String.mk (((s.data.dropWhile isPySpace).reverse.dropWhile isPySpace).reverse)

/-- Python `content.replace(chr 10, space)` as done in `on_message`:
every newline becomes a single space. -/
def replaceNewlines (s : String) : String :=
  String.mk (s.data.map (fun c => if c = '\n' then ' ' else c))

/-- Python `' '.join(parts)`. -/
def joinSpaces : List String → String
  | [] => ""
  | [x] => x
  | x :: xs => x ++ " " ++ joinSpaces xs

/-- Python `s.split(sep)` for a single-character separator. -/
def splitOnChar (sep : Char) : List Char → List (List Char)
  | [] => [[]]
  | c :: cs =>
    match splitOnChar sep cs with
    | [] => [[]]
    | g :: gs => if c = sep then [] :: g :: gs else (c :: g) :: gs

/-- Models Python `int()` on the decimal digit strings the remote API uses
for snowflake ids; any other string raises `ValueError`, modelled as
`none`. -/
def pyInt (s : String) : Option Nat :=
  if s.data ≠ [] ∧ s.data.all Char.isDigit then
    some (s.data.foldl (fun n c => 10 * n + (c.toNat - 48)) 0)
  else none

/-- Truthiness of `re.match(valid_message_pattern, content)` where
`valid_message_pattern` is the raw pattern caret, negative lookahead of
`[!?]` then `\s*` then `\w+`: the match fails exactly when the text starts
with an exclamation or question mark followed by optional whitespace and a
word character. -/
def looksLikeCommand : List Char → Bool
  | [] => false
  | c :: rest =>
    (c == '!' || c == '?') &&
      (match rest.dropWhile isPySpace with
       | [] => false
       | d :: _ => isWordChar d)

/-- `re.match(valid_message_pattern, content)` is truthy. -/
def validMessage (s : String) : Bool := !looksLikeCommand s.data

/-- Tries to match the regex of `re.sub` in `on_message`, an opening angle
bracket, the capture group of colon, `\w+`, colon, then `\d+` and a closing
angle bracket, at the head of the character list.  On success returns the
capture group (the replacement text) and the characters after the match. -/
def matchEmojiAt (l : List Char) : Option (List Char × List Char) :=
  match l with
  | c0 :: c1 :: rest =>
    if c0 = '<' ∧ c1 = ':' then
      let w := rest.takeWhile isWordChar
      match rest.dropWhile isWordChar with
      | c2 :: r2 =>
        if c2 = ':' ∧ w ≠ [] then
          let d := r2.takeWhile Char.isDigit
          match r2.dropWhile Char.isDigit with
          | c3 :: r4 =>
            if c3 = '>' ∧ d ≠ [] then some (':' :: (w ++ [':']), r4) else none
          | [] => none
        else none
      | [] => none
    else none
  | _ => none

/-- Left-to-right scan of Python `re.sub` with the custom-emoji pattern:
at each position the pattern is tried, on a match the replacement is
emitted and the scan resumes after the match.  The fuel argument only
bounds the recursion and never runs out when it starts at the length of
the list, because every match consumes at least six characters. -/
def emojiSubFuel : Nat → List Char → List Char
  | 0, l => l
  | fuel + 1, l =>
    match l with
    | [] => []
    | c :: cs =>
      match matchEmojiAt (c :: cs) with
      | some (rep, rest) => rep ++ emojiSubFuel fuel rest
      | none => c :: emojiSubFuel fuel cs

/-- `re.sub` of the custom-emoji markup pattern with the capture group as
replacement, applied to the whole string. -/
def emojiSub (s : String) : String := String.mk (emojiSubFuel s.data.length s.data)

/-- Helper for `re.match` of underscore, `.+`, underscore, dollar: scans
the characters after the leading underscore; `seen` records whether at
least one middle character has been consumed.  The dollar anchor also
matches just before a newline that ends the string, as in Python, and dot
does not match a newline. -/
def actionBody : List Char → Bool → Bool
  | [], _ => false
  | ['_'], seen => seen
  | ['_', '\n'], seen => seen
  | c :: cs, _ => if c = '\n' then false else actionBody cs true

/-- Truthiness of `re.match` with the pattern underscore, `.+`,
underscore, dollar, used by `on_message` to detect Discord action
messages. -/
def matchUnderscoreAction (s : String) : Bool :=
  match s.data with
  | '_' :: rest => actionBody rest false
  | _ => false

/-- Python slice `content[1:-1]`. -/
def dropFirstLast (s : String) : String := String.mk ((s.data.drop 1).dropLast)

/-- A webhook object as returned by the Discord API: `id` is a decimal
string, `token` the webhook secret and `name` the display name. -/
structure Hook where
  id : String
  token : String
  name : String
deriving DecidableEq, Repr

/-- A Discord message event as `on_message` reads it: the author id is an
int, the channel id an int, `cleanContent` is `message.clean_content` and
`attachments` the list of attachment URLs. -/
structure Message where
  authorId : Nat
  authorName : String
  channelId : Nat
  cleanContent : String
  attachments : List String
deriving DecidableEq, Repr

/-- The state `on_message` consults: `webhooks` is the registry
`bot.memory` webhooks dict (an entry holding `none` models the empty dict
written by `_setup_webhooks` after a failure) and `channelMappings` is
`client.channel_mappings`, Discord channel id to IRC channel name. -/
structure DiscordState where
  webhooks : List (Nat × Option Hook)
  channelMappings : List (Nat × String)
deriving DecidableEq, Repr

/-- `sopel.formatting.color(formatting.bold(name), colors.LIGHT_CYAN)`:
bold wraps the text in control-B characters and color wraps that in
control-C, the code 11, and control-C. -/
def nameFmt (name : String) : String :=
  "\x03" ++ "11" ++ "\x02" ++ name ++ "\x02" ++ "\x03"

/-- A send on the IRC side: `bot.say` or `bot.action`. -/
inductive IrcSend where
  | say (text : String) (channel : String)
  | action (text : String) (channel : String)
deriving DecidableEq, Repr

/-- Shallow embedding of the `on_message` Discord event handler.  Returns
the IRC send the handler performs, or `none` when the event is discarded;
`none` also covers the case where `int(hook['id'])` raises and the handler
dies before reaching any send. -/
def on_message (st : DiscordState) (m : Message) : Option IrcSend :=
  match Option.join (pyGet st.webhooks m.channelId) with
  | none => none
  | some hook =>
    match pyGet st.channelMappings m.channelId with
    | none => none
    | some ircChannel =>
      match pyInt hook.id with
      | none => none
      | some hookId =>
        if m.authorId = hookId then none
        else if validMessage m.cleanContent then
          let c1 := emojiSub m.cleanContent
          let c2 :=
            if m.attachments.isEmpty then c1
            else joinSpaces ((if c1 = "" then [] else [c1]) ++ m.attachments)
          let c3 := pyStrip (replaceNewlines c2)
          if c3 = "" then none
          else if matchUnderscoreAction c3 && m.attachments.isEmpty then
            some (IrcSend.action (m.authorName ++ " " ++ dropFirstLast c3) ircChannel)
          else
            some (IrcSend.say ("<" ++ nameFmt m.authorName ++ "> " ++ c3) ircChannel)
        else none

/-- `DISCORD_API_VERSION` from the module head. -/
def DISCORD_API_VERSION : Nat := 6

/-- `DISCORD_API_URL` from the module head. -/
def DISCORD_API_URL : String := "https://discord.com/api/v" ++ toString DISCORD_API_VERSION

/-- Payload of the delivery POST of `irc_message`. -/
structure WebhookPayload where
  content : String
  username : String
deriving DecidableEq, Repr

/-- An HTTP request as handed to `requests.post` by `irc_message`. -/
structure HttpRequest where
  url : String
  headers : List (String × String)
  payload : WebhookPayload
deriving DecidableEq, Repr

/-- Outcome of `requests.post` for the delivery call: either the call
itself raises a network `ConnectionError`, or it returns a response with
some status code. -/
inductive PostOutcome where
  | connError
  | response (status : Nat)
deriving DecidableEq, Repr

/-- The sopel bot state `irc_message` consults: the inverted mapping
IRC channel name to Discord channel id from `bot.memory`, the webhook
registry, and the configured bot token. -/
structure IrcBotState where
  channelMappings : List (String × Nat)
  webhooks : List (Nat × Option Hook)
  discordToken : String
deriving DecidableEq, Repr

/-- A sopel trigger as `irc_message` reads it: `matchString` is
`trigger.match.string` and `intentAction` is whether the intent tag equals
`ACTION`. -/
structure Trigger where
  isPrivmsg : Bool
  sender : String
  nick : String
  matchString : String
  intentAction : Bool
deriving DecidableEq, Repr

/-- The `try` body of `irc_message` after the request has been built: the
post either raises `ConnectionError` or returns a response that is fed to
`raise_for_status`. -/
def deliverBody (outcome : PostOutcome) : Except PyExc Unit :=
  match outcome with
  | PostOutcome.connError => Except.error PyExc.connectionError
  | PostOutcome.response s => raiseForStatus s

/-- The `try`/`except HTTPError`/`pass` wrapper of `irc_message`: an
`HTTPError` is swallowed and the handler returns normally, any other
exception escapes. -/
def tryExceptHTTPError (r : Except PyExc Unit) (req : HttpRequest) :
    Except PyExc (Option HttpRequest) :=
  match r with
  | Except.ok _ => Except.ok (some req)
  | Except.error e => if isHTTPError e then Except.ok (some req) else Except.error e

/-- The delivery request `irc_message` builds for a given hook: the URL
embeds the webhook id and its own token, the headers carry the bot
credential, the payload carries the formatted content and the
impersonated display name. -/
def buildRequest (bot : IrcBotState) (t : Trigger) (hook : Hook) : HttpRequest :=
  ⟨DISCORD_API_URL ++ "/webhooks/" ++ hook.id ++ "/" ++ hook.token,
    [("Authorization", "Bot " ++ bot.discordToken)],
    ⟨if t.intentAction then "_" ++ t.matchString ++ "_" else t.matchString,
      t.nick ++ " (IRC)"⟩⟩

/-- Shallow embedding of the `irc_message` outbound handler.  `post`
models `requests.post` for the delivery URL.  Result `ok none`: the
handler returned without making any HTTP call; `ok (some req)`: the
request `req` was posted and the handler returned normally, any
`HTTPError` from `raise_for_status` having been swallowed by the `except`
clause; `error e`: the exception `e` escaped the handler to the sopel
dispatcher. -/
def irc_message (post : HttpRequest → PostOutcome) (bot : IrcBotState) (t : Trigger) :
    Except PyExc (Option HttpRequest) :=
  if t.isPrivmsg then Except.ok none
  else
    match pyGet bot.channelMappings t.sender with
    | none => Except.ok none
    | some discordChannel =>
      match Option.join (pyGet bot.webhooks discordChannel) with
      | none => Except.ok none
      | some hook =>
        let req := buildRequest bot t hook
        tryExceptHTTPError (deliverBody (post req)) req

/-- Outcome of one of the provisioning HTTP calls of `_setup_webhooks`:
a network `ConnectionError` from the call itself, or a response with a
status code and a JSON body. -/
inductive HttpResult (α : Type) where
  | connError
  | response (status : Nat) (body : α)
deriving DecidableEq, Repr

/-- Body of the per-channel `try` block of `_setup_webhooks`.  The first
component tells whether the webhooks dict received an entry for the
channel and which value it holds, `none` standing for the empty dict
written right after the GET returns and before `raise_for_status`; the
second component is the exception the body raised, if any. -/
def provisionChannelRaw (get : Nat → HttpResult (List Hook)) (post : Nat → HttpResult Hook)
    (c : Nat) : Option (Option Hook) × Option PyExc :=
  match get c with
  | HttpResult.connError => (none, some PyExc.connectionError)
  | HttpResult.response s hooks =>
    match raiseForStatus s with
    | Except.error e => (some none, some e)
    | Except.ok () =>
      match (hooks.filter (fun h => h.name = "discord-irc")).getLast? with
      | some h => (some (some h), none)
      | none =>
        match post c with
        | HttpResult.connError => (some none, some PyExc.connectionError)
        | HttpResult.response s2 h =>
          match raiseForStatus s2 with
          | Except.error e => (some none, some e)
          | Except.ok () => (some (some h), none)

/-- The registry entry a channel ends up with when its `try` body does not
abort provisioning: `none` when the body never wrote an entry. -/
def provisionEntry (get : Nat → HttpResult (List Hook)) (post : Nat → HttpResult Hook)
    (c : Nat) : Option Hook :=
  ((provisionChannelRaw get post c).1).getD none

/-- The channel loop of `_setup_webhooks`: each channel runs its `try`
body; an `HTTPError` is caught, printed and the loop continues, any other
exception propagates out of the function. -/
def setupGo (get : Nat → HttpResult (List Hook)) (post : Nat → HttpResult Hook) :
    List Nat → List (Nat × Option Hook) → Except PyExc (List (Nat × Option Hook))
  | [], acc => Except.ok acc
  | c :: rest, acc =>
    let pr := provisionChannelRaw get post c
    let acc2 := match pr.1 with
      | none => acc
      | some e => dictInsert acc c e
    match pr.2 with
    | none => setupGo get post rest acc2
    | some e => if isHTTPError e then setupGo get post rest acc2 else Except.error e

/-- Shallow embedding of `_setup_webhooks`: resets the webhook registry
and provisions every mapped Discord channel in order.  `get` models the
webhook-listing GET and `post` the webhook-creating POST. -/
def setupWebhooks (get : Nat → HttpResult (List Hook)) (post : Nat → HttpResult Hook)
    (channels : List Nat) : Except PyExc (List (Nat × Option Hook)) :=
  setupGo get post channels []

/-- The item loop of `DictAttribute.parse`: each comma-separated item is
split on colons; tuple unpacking raises `ValueError` unless there are
exactly two parts; both parts are stripped and assigned into the dict, a
repeated key silently keeping the last value. -/
def parseGo : List (List Char) → List (String × String) →
    Except PyExc (List (String × String))
  | [], acc => Except.ok acc
  | item :: rest, acc =>
    match splitOnChar ':' item with
    | [k, v] => parseGo rest (dictInsert acc (pyStrip (String.mk k)) (pyStrip (String.mk v)))
    | _ => Except.error PyExc.valueError

/-- Shallow embedding of `DictAttribute.parse`. -/
def parseDict (value : String) : Except PyExc (List (String × String)) :=
  parseGo (splitOnChar ',' value.data) []

/-- The int-keyed dict comprehension of `setup` building
`client.channel_mappings`: `int(k)` raises `ValueError` on a key that is
not a digit string, and duplicate int keys silently keep the last value. -/
def buildIntKeyed : List (String × String) → List (Nat × String) →
    Except PyExc (List (Nat × String))
  | [], acc => Except.ok acc
  | p :: rest, acc =>
    match pyInt p.1 with
    | none => Except.error PyExc.valueError
    | some ik => buildIntKeyed rest (dictInsert acc ik p.2)

/-- The mapping-table construction of `setup`: from the parsed
configuration dict it builds `client.channel_mappings` with int keys and
the inverted dict stored in `bot.memory`, IRC channel name to Discord
channel id, each by plain dict comprehension with no duplicate check. -/
def setupMappings (config : List (String × String)) :
    Except PyExc (List (Nat × String) × List (String × Nat)) :=
  match buildIntKeyed config [] with
  | Except.error e => Except.error e
  | Except.ok r2l => Except.ok (r2l, pyDictOf (r2l.map (fun p => (p.2, p.1))))

/-! ## Helper lemmas -/

theorem tryExcept_not_error (o : PostOutcome) (req : HttpRequest)
    (h : o ≠ PostOutcome.connError) :
    ∃ r, tryExceptHTTPError (deliverBody o) req = Except.ok r := by
  cases o with
  | connError => exact absurd rfl h
  | response s =>
    simp only [deliverBody, raiseForStatus]
    by_cases hs : 400 ≤ s ∧ s < 600
    · rw [if_pos hs]
      exact ⟨some req, by simp [tryExceptHTTPError, isHTTPError]⟩
    · rw [if_neg hs]
      exact ⟨some req, rfl⟩

theorem tryExcept_error_conn (o : PostOutcome) (req : HttpRequest) (e : PyExc)
    (h : tryExceptHTTPError (deliverBody o) req = Except.error e) :
    e = PyExc.connectionError := by
  cases o with
  | connError =>
    simp only [deliverBody, tryExceptHTTPError, isHTTPError, Bool.false_eq_true,
      if_false, Except.error.injEq] at h
    exact h.symm
  | response s =>
    simp only [deliverBody, raiseForStatus] at h
    by_cases hs : 400 ≤ s ∧ s < 600
    · rw [if_pos hs] at h
      simp [tryExceptHTTPError, isHTTPError] at h
    · rw [if_neg hs] at h
      simp [tryExceptHTTPError] at h

theorem tryExcept_ok_shape (o : PostOutcome) (req : HttpRequest) (x : Option HttpRequest)
    (h : tryExceptHTTPError (deliverBody o) req = Except.ok x) :
    x = some req := by
  cases o with
  | connError =>
    simp [deliverBody, tryExceptHTTPError, isHTTPError] at h
  | response s =>
    simp only [deliverBody, raiseForStatus] at h
    by_cases hs : 400 ≤ s ∧ s < 600
    · rw [if_pos hs] at h
      simp only [tryExceptHTTPError, isHTTPError, if_true, Except.ok.injEq] at h
      exact h.symm
    · rw [if_neg hs] at h
      simp only [tryExceptHTTPError, Except.ok.injEq] at h
      exact h.symm

theorem takeWhile_append_stop {p : Char → Bool} (xs : List Char) (y : Char) (ys : List Char)
    (hxs : ∀ x ∈ xs, p x = true) (hy : p y = false) :
    (xs ++ y :: ys).takeWhile p = xs ∧ (xs ++ y :: ys).dropWhile p = y :: ys := by
  induction xs with
  | nil => simp [List.takeWhile_cons, List.dropWhile_cons, hy]
  | cons a as ih =>
    have ha : p a = true := hxs a (List.mem_cons_self a as)
    have ih2 := ih (fun x hx => hxs x (List.mem_cons_of_mem a hx))
    simp [List.takeWhile_cons, List.dropWhile_cons, ha, ih2.1, ih2.2]

theorem matchEmojiAt_eq (code d rest : List Char)
    (hc : code ≠ []) (hcw : ∀ c ∈ code, isWordChar c = true)
    (hd : d ≠ []) (hdd : ∀ c ∈ d, c.isDigit = true) :
    matchEmojiAt ('<' :: ':' :: (code ++ ':' :: (d ++ '>' :: rest))) =
      some (':' :: (code ++ [':']), rest) := by
  have h1 := takeWhile_append_stop code ':' (d ++ '>' :: rest) hcw (by decide)
  have h2 := takeWhile_append_stop d '>' rest hdd (by decide)
  unfold matchEmojiAt
  dsimp only
  rw [h1.1, h1.2]
  simp only [hc, h2.1, h2.2, hd]
  simp
  exact ⟨hc, hd⟩

theorem matchEmojiAt_length (l rep rest : List Char)
    (h : matchEmojiAt l = some (rep, rest)) : rest.length + 6 ≤ l.length := by
  match l with
  | [] => exact absurd h (by simp [matchEmojiAt])
  | [c] => exact absurd h (by simp [matchEmojiAt])
  | c0 :: c1 :: r =>
    unfold matchEmojiAt at h
    dsimp only at h
    by_cases h01 : c0 = '<' ∧ c1 = ':'
    · rw [if_pos h01] at h
      have hr : r.takeWhile isWordChar ++ r.dropWhile isWordChar = r :=
        List.takeWhile_append_dropWhile isWordChar r
      cases hdw : r.dropWhile isWordChar with
      | nil => rw [hdw] at h; exact absurd h (by simp)
      | cons c2 r2 =>
        rw [hdw] at h
        dsimp only at h
        by_cases hw : c2 = ':' ∧ r.takeWhile isWordChar ≠ []
        · rw [if_pos hw] at h
          have hr2 : r2.takeWhile Char.isDigit ++ r2.dropWhile Char.isDigit = r2 :=
            List.takeWhile_append_dropWhile Char.isDigit r2
          cases hdd : r2.dropWhile Char.isDigit with
          | nil => rw [hdd] at h; exact absurd h (by simp)
          | cons c3 r4 =>
            rw [hdd] at h
            dsimp only at h
            by_cases hd3 : c3 = '>' ∧ r2.takeWhile Char.isDigit ≠ []
            · rw [if_pos hd3] at h
              simp only [if_pos hd3, Option.some.injEq, Prod.mk.injEq] at h
              have hrest : r4 = rest := h.2
              subst hrest
              have hlw : 0 < (r.takeWhile isWordChar).length := List.length_pos.mpr hw.2
              have hld : 0 < (r2.takeWhile Char.isDigit).length := List.length_pos.mpr hd3.2
              have e1 := congrArg List.length hr
              rw [hdw] at e1
              have e2 := congrArg List.length hr2
              rw [hdd] at e2
              simp only [List.length_append, List.length_cons] at e1 e2 ⊢
              omega
            · rw [if_neg hd3] at h; exact absurd h (by simp)
        · rw [if_neg hw] at h; exact absurd h (by simp)
    · rw [if_neg h01] at h; exact absurd h (by simp)

theorem emojiSubFuel_step (fuel : Nat) (c : Char) (cs : List Char) :
    emojiSubFuel (fuel + 1) (c :: cs) =
      match matchEmojiAt (c :: cs) with
      | some (rep, rest) => rep ++ emojiSubFuel fuel rest
      | none => c :: emojiSubFuel fuel cs := rfl

theorem emojiSubFuel_congr : ∀ (f1 : Nat) (l : List Char) (f2 : Nat),
    l.length ≤ f1 → l.length ≤ f2 → emojiSubFuel f1 l = emojiSubFuel f2 l := by
  intro f1
  induction f1 with
  | zero =>
    intro l f2 h1 _
    have hnil : l = [] := List.length_eq_zero.mp (Nat.le_zero.mp h1)
    subst hnil
    cases f2 <;> rfl
  | succ k ih =>
    intro l f2 h1 h2
    cases l with
    | nil => cases f2 <;> rfl
    | cons c cs =>
      cases f2 with
      | zero => simp at h2
      | succ k2 =>
        unfold emojiSubFuel
        dsimp only
        cases hm : matchEmojiAt (c :: cs) with
        | none =>
          refine congrArg (c :: ·) (ih cs k2 ?_ ?_) <;>
            simp only [List.length_cons] at h1 h2 <;> omega
        | some pr =>
          obtain ⟨rep, rest⟩ := pr
          have hl := matchEmojiAt_length (c :: cs) rep rest hm
          refine congrArg (rep ++ ·) (ih rest k2 ?_ ?_) <;>
            simp only [List.length_cons] at h1 h2 hl <;> omega

theorem dictInsert_not_mem {α β : Type} [DecidableEq α] (d : List (α × β)) (k : α) (v : β)
    (h : k ∉ d.map Prod.fst) : dictInsert d k v = d ++ [(k, v)] := by
  induction d with
  | nil => rfl
  | cons p rest ih =>
    simp only [List.map_cons, List.mem_cons, not_or] at h
    unfold dictInsert
    rw [if_neg (fun he => h.1 he.symm)]
    rw [ih h.2]
    simp

theorem foldl_dictInsert_nodup {α β : Type} [DecidableEq α] :
    ∀ (l acc : List (α × β)), ((acc ++ l).map Prod.fst).Nodup →
      l.foldl (fun d p => dictInsert d p.1 p.2) acc = acc ++ l := by
  intro l
  induction l with
  | nil => intro acc _; simp
  | cons p rest ih =>
    intro acc h
    have hk : p.1 ∉ acc.map Prod.fst := by
      rw [List.map_append, List.map_cons, List.nodup_append] at h
      exact fun hmem => h.2.2 hmem (List.mem_cons_self _ _)
    simp only [List.foldl_cons]
    rw [dictInsert_not_mem acc p.1 p.2 hk]
    have h2 : (((acc ++ [p]) ++ rest).map Prod.fst).Nodup := by
      simpa [List.append_assoc] using h
    have h3 := ih (acc ++ [p]) h2
    simpa [List.append_assoc] using h3

theorem pyGet_of_mem {α β : Type} [DecidableEq α] :
    ∀ (l : List (α × β)) (p : α × β), (l.map Prod.fst).Nodup → p ∈ l →
      pyGet l p.1 = some p.2 := by
  intro l
  induction l with
  | nil => intro p _ hp; cases hp
  | cons q rest ih =>
    intro p hnd hp
    unfold pyGet
    rcases List.mem_cons.mp hp with heq | hmem
    · subst heq; rw [if_pos rfl]
    · have hq : q.1 ≠ p.1 := by
        rw [List.map_cons, List.nodup_cons] at hnd
        intro he
        exact hnd.1 (he ▸ List.mem_map_of_mem Prod.fst hmem)
      rw [if_neg hq]
      exact ih p (by rw [List.map_cons, List.nodup_cons] at hnd; exact hnd.2) hmem

theorem buildIntKeyed_eq :
    ∀ (config : List (String × String)) (acc : List (Nat × String)),
      (∀ p ∈ config, (pyInt p.1).isSome) →
      buildIntKeyed config acc = Except.ok
        ((config.map (fun p => ((pyInt p.1).getD 0, p.2))).foldl
          (fun d p => dictInsert d p.1 p.2) acc) := by
  intro config
  induction config with
  | nil => intro acc _; rfl
  | cons p rest ih =>
    intro acc h
    obtain ⟨n, hn⟩ := Option.isSome_iff_exists.mp (h p (List.mem_cons_self p rest))
    unfold buildIntKeyed
    rw [hn]
    dsimp only
    rw [ih (dictInsert acc n p.2) (fun q hq => h q (List.mem_cons_of_mem p hq))]
    simp [hn]

theorem pyGet_dictInsert_self {α β : Type} [DecidableEq α] :
    ∀ (d : List (α × β)) (k : α) (v : β), pyGet (dictInsert d k v) k = some v := by
  intro d
  induction d with
  | nil => intro k v; simp [dictInsert, pyGet]
  | cons p rest ih =>
    intro k v
    unfold dictInsert
    by_cases hp : p.1 = k
    · rw [if_pos hp]; simp [pyGet]
    · rw [if_neg hp]
      unfold pyGet
      rw [if_neg hp]
      exact ih k v

theorem pyGet_dictInsert_ne {α β : Type} [DecidableEq α] :
    ∀ (d : List (α × β)) (k : α) (v : β) (k2 : α), k2 ≠ k →
      pyGet (dictInsert d k v) k2 = pyGet d k2 := by
  intro d
  induction d with
  | nil =>
    intro k v k2 h
    show pyGet [(k, v)] k2 = pyGet [] k2
    unfold pyGet
    rw [if_neg (fun he : k = k2 => h he.symm)]
    rfl
  | cons p rest ih =>
    intro k v k2 h
    unfold dictInsert
    by_cases hp : p.1 = k
    · rw [if_pos hp]
      unfold pyGet
      rw [if_neg (fun he : k = k2 => h he.symm), if_neg (fun he : p.1 = k2 => h (hp ▸ he).symm)]
    · rw [if_neg hp]
      unfold pyGet
      by_cases hp2 : p.1 = k2
      · rw [if_pos hp2, if_pos hp2]
      · rw [if_neg hp2, if_neg hp2]
        exact ih k v k2 h

/-! ## Theorems -/

/-- C1: a remote message whose author id equals the registered webhook id
of its channel is never forwarded: `on_message` performs neither a say nor
an action, whatever the text and the attachments of the event. -/
theorem on_message_self_echo_discarded (st : DiscordState) (m : Message) (hook : Hook) (n : Nat)
    (hhook : Option.join (pyGet st.webhooks m.channelId) = some hook)
    (hid : pyInt hook.id = some n) (hauthor : m.authorId = n) :
    on_message st m = none := by
  unfold on_message
  rw [hhook]
  cases hmap : pyGet st.channelMappings m.channelId with
  | none => rfl
  | some chan => simp [hid, hauthor]

theorem on_message_self_echo_discarded_witness :
    on_message ⟨[(1, some ⟨"42", "tk", "discord-irc"⟩)], [(1, "#chan")]⟩
      ⟨42, "alice", 1, "hello", []⟩ = none :=
  on_message_self_echo_discarded _ _ ⟨"42", "tk", "discord-irc"⟩ 42 rfl (by decide) rfl

/-- C7: a trigger whose channel maps to a Discord channel whose webhook
registry entry is empty makes no HTTP call at all: `irc_message` returns
normally with no request, for every possible behaviour of the HTTP
client. -/
theorem irc_message_no_hook_noop (post : HttpRequest → PostOutcome) (bot : IrcBotState)
    (t : Trigger) (dc : Nat)
    (hmap : pyGet bot.channelMappings t.sender = some dc)
    (hhook : Option.join (pyGet bot.webhooks dc) = none) :
    irc_message post bot t = Except.ok none := by
  unfold irc_message
  cases hp : t.isPrivmsg
  · simp only [Bool.false_eq_true, if_false, hmap]
    rw [hhook]
  · simp

theorem irc_message_no_hook_noop_witness :
    irc_message (fun _ => PostOutcome.response 200)
      ⟨[("#irc", 1)], [(1, none)], "tok"⟩
      ⟨false, "#irc", "alice", "hi", false⟩ = Except.ok none :=
  irc_message_no_hook_noop _ _ _ 1 rfl rfl

/-- C2 counterexample: with a mapped channel and a cached webhook, a
delivery attempt whose HTTP post raises a network error is not caught:
the `ConnectionError` escapes `irc_message` to the sopel dispatcher,
refuting the claim that every HTTP failure is caught inside the
handler. -/
theorem irc_message_network_error_escapes :
    irc_message (fun _ => PostOutcome.connError)
      ⟨[("#irc", 1)], [(1, some ⟨"42", "tkn", "discord-irc"⟩)], "bottok"⟩
      ⟨false, "#irc", "alice", "hi", false⟩ = Except.error PyExc.connectionError := by
  rfl

/-- C2 amended: the `except` clause swallows exactly the `HTTPError` that
`raise_for_status` raises, so the handler returns normally whenever the
post returns a response of any status, 2xx or not; only a network error
raised by the post itself escapes, and it is the only exception that can
escape. -/
theorem irc_message_catches_only_http_error (post : HttpRequest → PostOutcome)
    (bot : IrcBotState) (t : Trigger) :
    ((∀ req, post req ≠ PostOutcome.connError) →
      ∃ r, irc_message post bot t = Except.ok r) ∧
    (∀ e, irc_message post bot t = Except.error e → e = PyExc.connectionError) := by
  unfold irc_message
  cases hp : t.isPrivmsg with
  | true => exact ⟨fun _ => ⟨none, by simp⟩, fun e he => by simp at he⟩
  | false =>
    simp only [Bool.false_eq_true, if_false]
    cases hmap : pyGet bot.channelMappings t.sender with
    | none => exact ⟨fun _ => ⟨none, rfl⟩, fun e he => by simp at he⟩
    | some dc =>
      dsimp only
      cases hhook : Option.join (pyGet bot.webhooks dc) with
      | none => exact ⟨fun _ => ⟨none, rfl⟩, fun e he => by simp at he⟩
      | some hook =>
        dsimp only
        refine ⟨fun hnet => ?_, fun e he => ?_⟩
        · exact tryExcept_not_error (post (buildRequest bot t hook))
            (buildRequest bot t hook) (hnet _)
        · exact tryExcept_error_conn (post (buildRequest bot t hook))
            (buildRequest bot t hook) e he

theorem irc_message_catches_only_http_error_witness :
    irc_message (fun _ => PostOutcome.response 500)
      ⟨[("#i", 2)], [(2, some ⟨"7", "t7", "discord-irc"⟩)], "btk"⟩
      ⟨false, "#i", "bob", "yo", false⟩ =
      Except.ok (some ⟨"https://discord.com/api/v6/webhooks/7/t7",
        [("Authorization", "Bot btk")], ⟨"yo", "bob (IRC)"⟩⟩) := by
  obtain ⟨r, hr⟩ := (irc_message_catches_only_http_error (fun _ => PostOutcome.response 500)
    ⟨[("#i", 2)], [(2, some ⟨"7", "t7", "discord-irc"⟩)], "btk"⟩
    ⟨false, "#i", "bob", "yo", false⟩).1 (fun _ h => PostOutcome.noConfusion h)
  rfl

/-- C6 counterexample: a concrete delivery request posted by `irc_message`
carries the bot credential bearer header, refuting the claim that the
delivery call carries no bot-credential header.  The URL does embed the
webhook id and its own token. -/
theorem delivery_carries_bot_header :
    irc_message (fun _ => PostOutcome.response 204)
      ⟨[("#chan", 3)], [(3, some ⟨"9", "wtok", "discord-irc"⟩)], "bottok2"⟩
      ⟨false, "#chan", "carol", "hey", false⟩ =
      Except.ok (some ⟨"https://discord.com/api/v6/webhooks/9/wtok",
        [("Authorization", "Bot bottok2")], ⟨"hey", "carol (IRC)"⟩⟩) := by
  rfl

/-- C6 amended: every delivery request `irc_message` posts is addressed to
the webhook URL built from the cached endpoint id and the endpoint's own
token, but it also carries the bot credential bearer header. -/
theorem delivery_url_and_headers (post : HttpRequest → PostOutcome) (bot : IrcBotState)
    (t : Trigger) (req : HttpRequest)
    (h : irc_message post bot t = Except.ok (some req)) :
    ("Authorization", "Bot " ++ bot.discordToken) ∈ req.headers ∧
    ∃ dc hook, pyGet bot.channelMappings t.sender = some dc ∧
      Option.join (pyGet bot.webhooks dc) = some hook ∧
      req.url = DISCORD_API_URL ++ "/webhooks/" ++ hook.id ++ "/" ++ hook.token := by
  unfold irc_message at h
  cases hp : t.isPrivmsg with
  | true => rw [hp] at h; simp at h
  | false =>
    rw [hp] at h
    simp only [Bool.false_eq_true, if_false] at h
    cases hmap : pyGet bot.channelMappings t.sender with
    | none => rw [hmap] at h; simp at h
    | some dc =>
      rw [hmap] at h
      dsimp only at h
      cases hhook : Option.join (pyGet bot.webhooks dc) with
      | none => rw [hhook] at h; simp at h
      | some hook =>
        rw [hhook] at h
        dsimp only at h
        have hreq : req = buildRequest bot t hook := by
          have := tryExcept_ok_shape (post (buildRequest bot t hook))
            (buildRequest bot t hook) (some req) h
          exact Option.some.inj this
        subst hreq
        exact ⟨List.mem_singleton.mpr rfl, dc, hook, rfl, hhook, rfl⟩

theorem delivery_url_and_headers_witness :
    ("Authorization", "Bot " ++ ("tokW" : String)) ∈
      (HttpRequest.mk "https://discord.com/api/v6/webhooks/5/wt5"
        [("Authorization", "Bot tokW")] ⟨"m", "dave (IRC)"⟩).headers :=
  (delivery_url_and_headers (fun _ => PostOutcome.response 200)
    ⟨[("#w", 5)], [(5, some ⟨"5", "wt5", "discord-irc"⟩)], "tokW"⟩
    ⟨false, "#w", "dave", "m", false⟩
    ⟨"https://discord.com/api/v6/webhooks/5/wt5", [("Authorization", "Bot tokW")],
      ⟨"m", "dave (IRC)"⟩⟩ (by rfl)).1

/-- C4 counterexample: a configuration with the remote id 1 repeated
parses without any error, silently keeping the last value, and `setup`
builds silently deduplicated maps from a repeated local channel, so
construction of the mapping table does not fail on duplicate ids. -/
theorem duplicate_ids_not_fatal :
    parseDict "1:#a,1:#b" = Except.ok [("1", "#b")] ∧
    setupMappings [("1", "#a"), ("2", "#a")] =
      Except.ok ([(1, "#a"), (2, "#a")], [("#a", 2)]) := by
  exact ⟨rfl, rfl⟩

/-- C4 amended: a duplicate id is silently tolerated rather than fatal: a
repeated remote id keeps the last local value in `parse`, a repeated local
channel is deduplicated last-write-wins in the inverted map built by
`setup`, and no error is raised for either; the only load-time parse
failure is an item that does not split into exactly two colon-separated
parts, which raises `ValueError`. -/
theorem duplicate_ids_last_wins :
    parseDict "3: #c, 3: #d" = Except.ok [("3", "#d")] ∧
    setupMappings [("4", "#e"), ("5", "#e")] =
      Except.ok ([(4, "#e"), (5, "#e")], [("#e", 5)]) ∧
    parseDict "89" = Except.error PyExc.valueError ∧
    parseDict "6:7:8" = Except.error PyExc.valueError := by
  exact ⟨rfl, rfl, rfl, rfl⟩

/-- C9: with a registered webhook, a mapped channel and a foreign author,
a remote event whose text is the string bang-help is discarded by the
command filter and produces no local send, while an otherwise identical
event whose text is the word hello passes the filter and is forwarded as
a say on the mapped IRC channel. -/
theorem on_message_command_filter (st : DiscordState) (m : Message) (hook : Hook) (n : Nat)
    (chan : String)
    (hhook : Option.join (pyGet st.webhooks m.channelId) = some hook)
    (hmap : pyGet st.channelMappings m.channelId = some chan)
    (hid : pyInt hook.id = some n) (hauthor : m.authorId ≠ n) :
    (m.cleanContent = "!help" → on_message st m = none) ∧
    (m.cleanContent = "hello" → m.attachments = [] →
      on_message st m =
        some (IrcSend.say ("<" ++ nameFmt m.authorName ++ "> " ++ "hello") chan)) := by
  constructor
  · intro hc
    unfold on_message
    rw [hhook]
    dsimp only
    rw [hmap]
    dsimp only
    rw [hid]
    dsimp only
    rw [if_neg hauthor, hc]
    have e1 : validMessage "!help" = false := by decide
    simp [e1]
  · intro hc hatt
    unfold on_message
    rw [hhook]
    dsimp only
    rw [hmap]
    dsimp only
    rw [hid]
    dsimp only
    rw [if_neg hauthor, hc, hatt]
    have e1 : validMessage "hello" = true := by decide
    have e2 : pyStrip (replaceNewlines (emojiSub "hello")) = "hello" := by decide
    have e3 : matchUnderscoreAction "hello" = false := by decide
    simp [e1, e2, e3]

theorem on_message_command_filter_witness :
    on_message ⟨[(4, some ⟨"77", "tk4", "discord-irc"⟩)], [(4, "#four")]⟩
      ⟨8, "ann", 4, "!help", []⟩ = none ∧
    on_message ⟨[(4, some ⟨"77", "tk4", "discord-irc"⟩)], [(4, "#four")]⟩
      ⟨8, "ann", 4, "hello", []⟩ =
      some (IrcSend.say ("<" ++ nameFmt "ann" ++ "> " ++ "hello") "#four") :=
  ⟨(on_message_command_filter ⟨[(4, some ⟨"77", "tk4", "discord-irc"⟩)], [(4, "#four")]⟩
      ⟨8, "ann", 4, "!help", []⟩ ⟨"77", "tk4", "discord-irc"⟩ 77 "#four"
      rfl rfl (by decide) (by decide)).1 rfl,
   (on_message_command_filter ⟨[(4, some ⟨"77", "tk4", "discord-irc"⟩)], [(4, "#four")]⟩
      ⟨8, "ann", 4, "hello", []⟩ ⟨"77", "tk4", "discord-irc"⟩ 77 "#four"
      rfl rfl (by decide) (by decide)).2 rfl rfl⟩

/-- C10: with a registered webhook, a mapped channel and a foreign author,
an event whose text is one pair of underscores around the words doing a
thing and which carries no attachments is emitted through the action
primitive with the underscores stripped; the same text with an attachment
present goes through the ordinary say branch and the underscores are kept
in the relayed text. -/
theorem on_message_action_detection (st : DiscordState) (m : Message) (hook : Hook) (n : Nat)
    (chan : String)
    (hhook : Option.join (pyGet st.webhooks m.channelId) = some hook)
    (hmap : pyGet st.channelMappings m.channelId = some chan)
    (hid : pyInt hook.id = some n) (hauthor : m.authorId ≠ n)
    (hc : m.cleanContent = "_doing a thing_") :
    (m.attachments = [] →
      on_message st m =
        some (IrcSend.action (m.authorName ++ " " ++ "doing a thing") chan)) ∧
    (m.attachments = ["http://example.com/a.png"] →
      on_message st m =
        some (IrcSend.say
          ("<" ++ nameFmt m.authorName ++ "> " ++ "_doing a thing_ http://example.com/a.png")
          chan)) := by
  constructor
  · intro hatt
    unfold on_message
    rw [hhook]
    dsimp only
    rw [hmap]
    dsimp only
    rw [hid]
    dsimp only
    rw [if_neg hauthor, hc, hatt]
    have e1 : validMessage "_doing a thing_" = true := by decide
    have e2 : pyStrip (replaceNewlines (emojiSub "_doing a thing_")) = "_doing a thing_" := by
      decide
    have e3 : matchUnderscoreAction "_doing a thing_" = true := by decide
    have e4 : dropFirstLast "_doing a thing_" = "doing a thing" := by decide
    simp [e1, e2, e3, e4]
  · intro hatt
    unfold on_message
    rw [hhook]
    dsimp only
    rw [hmap]
    dsimp only
    rw [hid]
    dsimp only
    rw [if_neg hauthor, hc, hatt]
    have e1 : validMessage "_doing a thing_" = true := by decide
    have e2 : emojiSub "_doing a thing_" = "_doing a thing_" := by decide
    have e5 : joinSpaces ["_doing a thing_", "http://example.com/a.png"] =
        "_doing a thing_ http://example.com/a.png" := by decide
    have e6 : pyStrip (replaceNewlines "_doing a thing_ http://example.com/a.png") =
        "_doing a thing_ http://example.com/a.png" := by decide
    simp [e1, e2, e5, e6]

theorem on_message_action_detection_witness :
    on_message ⟨[(6, some ⟨"99", "tk6", "discord-irc"⟩)], [(6, "#six")]⟩
      ⟨9, "bea", 6, "_doing a thing_", []⟩ =
      some (IrcSend.action ("bea" ++ " " ++ "doing a thing") "#six") ∧
    on_message ⟨[(6, some ⟨"99", "tk6", "discord-irc"⟩)], [(6, "#six")]⟩
      ⟨9, "bea", 6, "_doing a thing_", ["http://example.com/a.png"]⟩ =
      some (IrcSend.say
        ("<" ++ nameFmt "bea" ++ "> " ++ "_doing a thing_ http://example.com/a.png")
        "#six") :=
  ⟨(on_message_action_detection ⟨[(6, some ⟨"99", "tk6", "discord-irc"⟩)], [(6, "#six")]⟩
      ⟨9, "bea", 6, "_doing a thing_", []⟩ ⟨"99", "tk6", "discord-irc"⟩ 99 "#six"
      rfl rfl (by decide) (by decide) rfl).1 rfl,
   (on_message_action_detection ⟨[(6, some ⟨"99", "tk6", "discord-irc"⟩)], [(6, "#six")]⟩
      ⟨9, "bea", 6, "_doing a thing_", ["http://example.com/a.png"]⟩
      ⟨"99", "tk6", "discord-irc"⟩ 99 "#six"
      rfl rfl (by decide) (by decide) rfl).2 rfl⟩

/-- C8: custom-emoji markup, an angle-bracketed colon-wrapped word code
followed by a numeric id, is rewritten to just the colon-wrapped code
wherever the left-to-right scan of `re.sub` meets it, the scan continuing
on the remainder of the text, so every occurrence in the event text is
rewritten; in particular the smile emoji markup normalizes to the bare
smile shortcode, as the witness instantiates. -/
theorem emojiSub_rewrites (code d rest : List Char)
    (hc : code ≠ []) (hcw : ∀ c ∈ code, isWordChar c = true)
    (hd : d ≠ []) (hdd : ∀ c ∈ d, c.isDigit = true) :
    emojiSub (String.mk ('<' :: ':' :: (code ++ ':' :: (d ++ '>' :: rest)))) =
      String.mk (':' :: (code ++ [':']) ++ emojiSubFuel rest.length rest) := by
  unfold emojiSub
  dsimp only
  rw [List.length_cons, List.length_cons, emojiSubFuel_step]
  rw [matchEmojiAt_eq code d rest hc hcw hd hdd]
  dsimp only
  have hcongr : emojiSubFuel ((code ++ ':' :: (d ++ '>' :: rest)).length + 1) rest =
      emojiSubFuel rest.length rest := by
    apply emojiSubFuel_congr
    · simp only [List.length_append, List.length_cons]
      omega
    · exact Nat.le_refl _
  rw [hcongr]

theorem emojiSub_rewrites_witness : emojiSub "<:smile:123456789>" = ":smile:" := by
  have h := emojiSub_rewrites "smile".data "123456789".data []
    (by decide) (by decide) (by decide) (by decide)
  have e1 : String.mk ('<' :: ':' :: ("smile".data ++ ':' :: ("123456789".data ++ '>' :: []))) =
      "<:smile:123456789>" := by decide
  rw [e1] at h
  rw [h]
  decide

/-- C3 counterexample: when the webhook-listing call for channel 1 fails
with a network error, `_setup_webhooks` does not log and continue: the
`ConnectionError` escapes, so channel 2 is never provisioned and no
registry is produced. -/
theorem setup_webhooks_network_error_aborts :
    setupWebhooks (fun _ => HttpResult.connError)
      (fun _ => HttpResult.response 200 ⟨"8", "t8", "discord-irc"⟩) [1, 2] =
      Except.error PyExc.connectionError := by
  rfl

/-- C5: under the configured bijectivity invariant, no two pairs sharing a
remote id after int conversion and no two pairs sharing a local channel,
the two maps `setup` builds are mutually inverse on the configured pairs:
a remote id looked up remote-to-local and the result looked up
local-to-remote gives back the original remote id, and symmetrically for
local channels. -/
theorem setup_maps_mutually_inverse (config : List (String × String))
    (r2l : List (Nat × String)) (l2r : List (String × Nat))
    (hok : setupMappings config = Except.ok (r2l, l2r))
    (hparse : ∀ p ∈ config, (pyInt p.1).isSome)
    (hkeys : (config.map (fun p => (pyInt p.1).getD 0)).Nodup)
    (hvals : (config.map Prod.snd).Nodup) :
    (∀ p ∈ r2l, pyGet r2l p.1 = some p.2 ∧ pyGet l2r p.2 = some p.1) ∧
    (∀ q ∈ l2r, pyGet l2r q.1 = some q.2 ∧ pyGet r2l q.2 = some q.1) := by
  have hkeys2 : ((config.map (fun p => ((pyInt p.1).getD 0, p.2))).map Prod.fst).Nodup := by
    rw [List.map_map]
    exact hkeys
  have hb := buildIntKeyed_eq config [] hparse
  rw [foldl_dictInsert_nodup _ [] (by simpa using hkeys2), List.nil_append] at hb
  unfold setupMappings at hok
  rw [hb] at hok
  dsimp only at hok
  have hpair := Except.ok.inj hok
  have h1 : config.map (fun p => ((pyInt p.1).getD 0, p.2)) = r2l := congrArg Prod.fst hpair
  have h2 : pyDictOf ((config.map (fun p => ((pyInt p.1).getD 0, p.2))).map
      (fun p => (p.2, p.1))) = l2r := congrArg Prod.snd hpair
  have hvals2 : (((config.map (fun p => ((pyInt p.1).getD 0, p.2))).map
      (fun p => (p.2, p.1))).map Prod.fst).Nodup := by
    rw [List.map_map, List.map_map]
    exact hvals
  have hl2r : (config.map (fun p => ((pyInt p.1).getD 0, p.2))).map (fun p => (p.2, p.1)) =
      l2r := by
    rw [← h2]
    unfold pyDictOf
    rw [foldl_dictInsert_nodup _ [] (by simpa using hvals2), List.nil_append]
  have hr2lkeys : (r2l.map Prod.fst).Nodup := h1 ▸ hkeys2
  have hl2rkeys : (l2r.map Prod.fst).Nodup := hl2r ▸ hvals2
  constructor
  · intro p hp
    refine ⟨pyGet_of_mem r2l p hr2lkeys hp, ?_⟩
    have hmem : (p.2, p.1) ∈ l2r := by
      rw [← hl2r]
      exact List.mem_map_of_mem (fun p => (p.2, p.1)) (h1.symm ▸ hp)
    exact pyGet_of_mem l2r (p.2, p.1) hl2rkeys hmem
  · intro q hq
    refine ⟨pyGet_of_mem l2r q hl2rkeys hq, ?_⟩
    rw [← hl2r] at hq
    obtain ⟨p, hpmem, hpq⟩ := List.mem_map.mp hq
    have hp : p ∈ r2l := h1 ▸ hpmem
    have := pyGet_of_mem r2l p hr2lkeys hp
    rw [← hpq]
    exact this

theorem setup_maps_mutually_inverse_witness :
    pyGet [(1, "#a"), (2, "#b")] 1 = some "#a" ∧
    pyGet [("#a", 1), ("#b", 2)] "#a" = some 1 :=
  (setup_maps_mutually_inverse [("1", "#a"), ("2", "#b")]
    [(1, "#a"), (2, "#b")] [("#a", 1), ("#b", 2)]
    rfl (by decide) (by decide) (by decide)).1 (1, "#a") (by decide)

theorem provisionChannelRaw_writes (get : Nat → HttpResult (List Hook))
    (post : Nat → HttpResult Hook) (c : Nat) (h : get c ≠ HttpResult.connError) :
    ((provisionChannelRaw get post c).1).isSome := by
  unfold provisionChannelRaw
  cases hg : get c with
  | connError => exact absurd hg h
  | response s hooks =>
    dsimp only
    unfold raiseForStatus
    by_cases hs : 400 ≤ s ∧ s < 600
    · rw [if_pos hs]
      rfl
    · rw [if_neg hs]
      dsimp only
      cases hfind : (hooks.filter (fun hk => hk.name = "discord-irc")).getLast? with
      | some hk => rfl
      | none =>
        dsimp only
        cases hp : post c with
        | connError => rfl
        | response s2 hk =>
          dsimp only
          by_cases hs2 : 400 ≤ s2 ∧ s2 < 600
          · rw [if_pos hs2]
            rfl
          · rw [if_neg hs2]
            rfl

theorem provisionChannelRaw_exc_http (get : Nat → HttpResult (List Hook))
    (post : Nat → HttpResult Hook) (c : Nat)
    (hg : get c ≠ HttpResult.connError) (hp : post c ≠ HttpResult.connError) :
    ∀ e, (provisionChannelRaw get post c).2 = some e → isHTTPError e = true := by
  intro e he
  unfold provisionChannelRaw at he
  cases hgc : get c with
  | connError => exact absurd hgc hg
  | response s hooks =>
    rw [hgc] at he
    dsimp only at he
    unfold raiseForStatus at he
    by_cases hs : 400 ≤ s ∧ s < 600
    · rw [if_pos hs] at he
      dsimp only at he
      rw [← Option.some.inj he]
      rfl
    · rw [if_neg hs] at he
      dsimp only at he
      cases hfind : (hooks.filter (fun hk => hk.name = "discord-irc")).getLast? with
      | some hk => rw [hfind] at he; exact absurd he (by simp)
      | none =>
        rw [hfind] at he
        dsimp only at he
        cases hpc : post c with
        | connError => exact absurd hpc hp
        | response s2 hk =>
          rw [hpc] at he
          dsimp only at he
          by_cases hs2 : 400 ≤ s2 ∧ s2 < 600
          · rw [if_pos hs2] at he
            dsimp only at he
            rw [← Option.some.inj he]
            rfl
          · rw [if_neg hs2] at he
            exact absurd he (by simp)

theorem setupGo_ok (get : Nat → HttpResult (List Hook)) (post : Nat → HttpResult Hook) :
    ∀ (channels : List Nat) (acc : List (Nat × Option Hook)),
      (∀ c ∈ channels, get c ≠ HttpResult.connError ∧ post c ≠ HttpResult.connError) →
      setupGo get post channels acc = Except.ok
        (channels.foldl (fun a c => dictInsert a c (provisionEntry get post c)) acc) := by
  intro channels
  induction channels with
  | nil => intro acc _; rfl
  | cons c rest ih =>
    intro acc h
    have hc := h c (List.mem_cons_self c rest)
    obtain ⟨e, he⟩ := Option.isSome_iff_exists.mp
      (provisionChannelRaw_writes get post c hc.1)
    have hentry : provisionEntry get post c = e := by
      unfold provisionEntry
      rw [he]
      rfl
    unfold setupGo
    dsimp only
    rw [he]
    dsimp only
    split
    · rw [ih (dictInsert acc c e) (fun x hx => h x (List.mem_cons_of_mem c hx))]
      rw [List.foldl_cons, hentry]
    · rename_i ex hexc
      rw [provisionChannelRaw_exc_http get post c hc.1 hc.2 ex hexc, if_pos rfl]
      rw [ih (dictInsert acc c e) (fun x hx => h x (List.mem_cons_of_mem c hx))]
      rw [List.foldl_cons, hentry]

theorem pyGet_provision_foldl_not_mem (get : Nat → HttpResult (List Hook))
    (post : Nat → HttpResult Hook) :
    ∀ (channels : List Nat) (acc : List (Nat × Option Hook)) (c : Nat), c ∉ channels →
      pyGet (channels.foldl (fun a x => dictInsert a x (provisionEntry get post x)) acc) c =
        pyGet acc c := by
  intro channels
  induction channels with
  | nil => intro acc c _; rfl
  | cons x rest ih =>
    intro acc c hc
    simp only [List.mem_cons, not_or] at hc
    rw [List.foldl_cons, ih _ c hc.2, pyGet_dictInsert_ne acc x _ c hc.1]

theorem pyGet_provision_foldl_mem (get : Nat → HttpResult (List Hook))
    (post : Nat → HttpResult Hook) :
    ∀ (channels : List Nat) (acc : List (Nat × Option Hook)) (c : Nat),
      channels.Nodup → c ∈ channels →
      pyGet (channels.foldl (fun a x => dictInsert a x (provisionEntry get post x)) acc) c =
        some (provisionEntry get post c) := by
  intro channels
  induction channels with
  | nil => intro acc c _ hc; cases hc
  | cons x rest ih =>
    intro acc c hnd hc
    rw [List.nodup_cons] at hnd
    rcases List.mem_cons.mp hc with heq | hmem
    · subst heq
      rw [List.foldl_cons, pyGet_provision_foldl_not_mem get post rest _ c hnd.1,
        pyGet_dictInsert_self]
    · rw [List.foldl_cons]
      exact ih _ c hnd.2 hmem

/-- C3 amended: when no provisioning call hits a network error,
`_setup_webhooks` never raises: each non-2xx response is caught per
channel, the loop continues with the remaining channels, and with
distinct channels a channel whose webhook listing returned a 4xx or 5xx
status is left with an empty registry entry.  A network error, by
contrast, escapes the function, as the counterexample shows. -/
theorem setup_webhooks_catches_only_http_error (get : Nat → HttpResult (List Hook))
    (post : Nat → HttpResult Hook) (channels : List Nat)
    (hnc : ∀ c ∈ channels, get c ≠ HttpResult.connError ∧ post c ≠ HttpResult.connError) :
    setupWebhooks get post channels = Except.ok
      (channels.foldl (fun a c => dictInsert a c (provisionEntry get post c)) []) ∧
    (channels.Nodup → ∀ c ∈ channels, ∀ s hooks, get c = HttpResult.response s hooks →
      400 ≤ s → s < 600 →
      pyGet (channels.foldl (fun a c => dictInsert a c (provisionEntry get post c)) []) c =
        some none) := by
  refine ⟨setupGo_ok get post channels [] hnc, fun hnd c hc s hooks hg h4 h6 => ?_⟩
  rw [pyGet_provision_foldl_mem get post channels [] c hnd hc]
  have : provisionEntry get post c = none := by
    unfold provisionEntry provisionChannelRaw
    rw [hg]
    dsimp only
    unfold raiseForStatus
    rw [if_pos ⟨h4, h6⟩]
    rfl
  rw [this]

theorem setup_webhooks_catches_only_http_error_witness :
    setupWebhooks
      (fun c => if c = 1 then HttpResult.response 404 [] else
        HttpResult.response 200 [⟨"8", "t8", "discord-irc"⟩])
      (fun _ => HttpResult.response 200 ⟨"9", "t9", "discord-irc"⟩) [1, 2] = Except.ok
      ([1, 2].foldl (fun a c => dictInsert a c (provisionEntry
        (fun c => if c = 1 then HttpResult.response 404 [] else
          HttpResult.response 200 [⟨"8", "t8", "discord-irc"⟩])
        (fun _ => HttpResult.response 200 ⟨"9", "t9", "discord-irc"⟩) c)) []) :=
  (setup_webhooks_catches_only_http_error _ _ [1, 2] (by decide)).1

end SopelDiscord
